import Mathlib

/-
Verification of the "my-little-ledger" account core (src/my-little-ledger.go).

Shallow embedding conventions:
* Go `Money` is `int64`; it is modelled as `Int` (the claims under study are
  not about two's-complement wraparound, and for amounts within the int64
  range the Go arithmetic and `Int` arithmetic coincide).
* `time.Now().Unix()` inside `makeTransaction` is modelled by passing the
  current timestamp as an explicit argument (an injected clock).
* Go `float64` inputs to `fToMoney`/`createAccount` are modelled as exact
  rationals `ℚ`; the Go cast `Money(f * 100)` truncates toward zero, which is
  `ratTruncTowardZero (f * 100)` here.
* The `fmt.Printf` logging lines are I/O glue with no effect on account state
  and are not modelled.
* File persistence: `json.Marshal` of an `Account` cannot fail, so
  `saveToFile` is modelled as the serialized JSON value that gets written.
  `readFromFile` takes a `ReadResult`: either the read failed (`ioError`,
  the `ioutil.ReadFile` error case), or it produced bytes that are not valid
  JSON (`content none`, where `json.Unmarshal` reports a syntax error without
  touching the target), or bytes that parse to a JSON value (`content (some j)`,
  which `json.Unmarshal` then decodes field by field).
-/

namespace MyLittleLedger

/-- Go: `type Money int64` — dollars and cents as an integer value. -/
abbrev Money := Int

/-- Go: `type Transaction struct` with json fields
`timestamp`, `income`, `expense`, `balance`. -/
structure Transaction where
  timestamp : Int
  income : Money
  expense : Money
  balance : Money
deriving DecidableEq

/-- Go: `type Account struct` with json fields
`balance`, `startBalance`, `transactions`. -/
structure Account where
  balance : Money
  startBalance : Money
  transactions : List Transaction
deriving DecidableEq

/-- Go's float-to-integer conversion discards the fractional part
(rounds toward zero). -/
def ratTruncTowardZero (q : ℚ) : Int :=
  if 0 ≤ q then ⌊q⌋ else ⌈q⌉

/-- Go: `func fToMoney(f float64) Money { return Money(f * 100) }`.
The decimal input is modelled as an exact rational; the cast truncates. -/
def fToMoney (f : ℚ) : Money :=
  ratTruncTowardZero (f * 100)

/-- Go: `createAccount(startBalance float64)` — balance and startBalance both
set to `fToMoney startBalance`, transactions empty. -/
def createAccount (startBalance : ℚ) : Account :=
  { balance := fToMoney startBalance
    startBalance := fToMoney startBalance
    transactions := [] }

/-- Go: `(account *Account) makeTransaction(income, expense Money) Money`.
It computes `newBalance := income + account.Balance - expense`, stores it,
appends a transaction stamped with the current time, and returns the new
balance.  The mutation of the receiver is modelled by returning the updated
account together with the returned Money. -/
def Account.makeTransaction (account : Account) (now : Int)
    (income expense : Money) : Account × Money :=
  let newBalance := income + account.balance - expense
  ({ balance := newBalance
     startBalance := account.startBalance
     transactions := account.transactions ++
       [{ timestamp := now, income := income, expense := expense,
          balance := newBalance }] },
   newBalance)

/-- Go: `(account *Account) deposit(amount Money) Money` —
`makeTransaction(amount, 0)` after a log line. -/
def Account.deposit (account : Account) (now : Int) (amount : Money) :
    Account × Money :=
  account.makeTransaction now amount 0

/-- Go: `(account *Account) withdraw(amount Money) Money` —
`makeTransaction(0, amount)` after a log line. -/
def Account.withdraw (account : Account) (now : Int) (amount : Money) :
    Account × Money :=
  account.makeTransaction now 0 amount

/-- One call in a sequence of deposit/withdraw calls, carrying the wall-clock
timestamp that `time.Now().Unix()` would produce during that call. -/
inductive Op where
  | deposit (now : Int) (amount : Money)
  | withdraw (now : Int) (amount : Money)
deriving DecidableEq

/-- Dispatch one call to the corresponding account method. -/
def applyOp (account : Account) : Op → Account × Money
  | .deposit now amount => account.deposit now amount
  | .withdraw now amount => account.withdraw now amount

/-- Run a sequence of calls, keeping the final account state. -/
def runOps (account : Account) : List Op → Account
  | [] => account
  | op :: rest => runOps (applyOp account op).1 rest

/-- Run a sequence of calls, collecting each call's return value. -/
def runReturns (account : Account) : List Op → List Money
  | [] => []
  | op :: rest => (applyOp account op).2 :: runReturns (applyOp account op).1 rest

/-- The income recorded by a call: the amount for a deposit, 0 for a withdraw. -/
def Op.income : Op → Money
  | .deposit _ amount => amount
  | .withdraw _ _ => 0

/-- The expense recorded by a call: 0 for a deposit, the amount for a withdraw. -/
def Op.expense : Op → Money
  | .deposit _ _ => 0
  | .withdraw _ amount => amount

/-- The amount argument passed to the call. -/
def Op.amount : Op → Money
  | .deposit _ amount => amount
  | .withdraw _ amount => amount

/-- The wall-clock timestamp observed during the call. -/
def Op.now : Op → Int
  | .deposit now _ => now
  | .withdraw now _ => now

/-- Sum of all incomes over a call sequence. -/
def sumIncomes (ops : List Op) : Money :=
  (ops.map Op.income).sum

/-- Sum of all expenses over a call sequence. -/
def sumExpenses (ops : List Op) : Money :=
  (ops.map Op.expense).sum

/-- Evaluation rule for `fToMoney` on non-negative inputs: it is the floor of
`f * 100`, pinned down by the usual bracketing inequalities. -/
theorem fToMoney_eval (f : ℚ) (n : Int) (h0 : 0 ≤ f)
    (h1 : (n : ℚ) ≤ f * 100) (h2 : f * 100 < n + 1) : fToMoney f = n := by
  have hq : (0 : ℚ) ≤ f * 100 := by positivity
  rw [fToMoney, ratTruncTowardZero, if_pos hq]
  exact Int.floor_eq_iff.mpr ⟨h1, by exact_mod_cast h2⟩

theorem fToMoney_zero : fToMoney 0 = 0 :=
  fToMoney_eval 0 0 le_rfl (by norm_num) (by norm_num)

theorem createAccount_zero :
    createAccount 0 = { balance := 0, startBalance := 0, transactions := [] } := by
  simp [createAccount, fToMoney_zero]

/-! ### Basic facts about a single call -/

/-- A call returns exactly the updated balance field. -/
theorem applyOp_ret (account : Account) (op : Op) :
    (applyOp account op).2 = (applyOp account op).1.balance := by
  cases op <;> rfl

/-- Effect of one call on the balance field. -/
theorem applyOp_balance (account : Account) (op : Op) :
    (applyOp account op).1.balance = account.balance + op.income - op.expense := by
  cases op with
  | deposit now amount =>
    simp [applyOp, Account.deposit, Account.makeTransaction, Op.income, Op.expense]
    ring
  | withdraw now amount =>
    simp [applyOp, Account.withdraw, Account.makeTransaction, Op.income, Op.expense]

/-- A call never touches the startBalance field. -/
theorem applyOp_startBalance (account : Account) (op : Op) :
    (applyOp account op).1.startBalance = account.startBalance := by
  cases op <;> rfl

/-- Effect of one call on the transaction list: exactly one record is appended
and the existing records are untouched. -/
theorem applyOp_transactions (account : Account) (op : Op) :
    (applyOp account op).1.transactions = account.transactions ++
      [{ timestamp := op.now, income := op.income, expense := op.expense,
         balance := account.balance + op.income - op.expense }] := by
  cases op with
  | deposit now amount =>
    simp [applyOp, Account.deposit, Account.makeTransaction, Op.income,
      Op.expense, Op.now]
    ring
  | withdraw now amount =>
    simp [applyOp, Account.withdraw, Account.makeTransaction, Op.income,
      Op.expense, Op.now]

/-! ### Facts about call sequences -/

theorem sumIncomes_nil : sumIncomes [] = 0 := rfl

theorem sumExpenses_nil : sumExpenses [] = 0 := rfl

theorem sumIncomes_cons (op : Op) (ops : List Op) :
    sumIncomes (op :: ops) = op.income + sumIncomes ops := by
  simp [sumIncomes]

theorem sumExpenses_cons (op : Op) (ops : List Op) :
    sumExpenses (op :: ops) = op.expense + sumExpenses ops := by
  simp [sumExpenses]

/-- The balance after a sequence of calls is the starting balance plus all
incomes minus all expenses. -/
theorem runOps_balance (account : Account) (ops : List Op) :
    (runOps account ops).balance =
      account.balance + sumIncomes ops - sumExpenses ops := by
  induction ops generalizing account with
  | nil => simp [runOps, sumIncomes_nil, sumExpenses_nil]
  | cons op rest ih =>
    rw [runOps, ih, applyOp_balance, sumIncomes_cons, sumExpenses_cons]
    ring

/-- A sequence of calls never touches the startBalance field. -/
theorem runOps_startBalance (account : Account) (ops : List Op) :
    (runOps account ops).startBalance = account.startBalance := by
  induction ops generalizing account with
  | nil => rfl
  | cons op rest ih => rw [runOps, ih, applyOp_startBalance]

/-- Each call appends exactly one transaction, so the history grows by the
number of calls. -/
theorem runOps_transactions_length (account : Account) (ops : List Op) :
    (runOps account ops).transactions.length =
      account.transactions.length + ops.length := by
  induction ops generalizing account with
  | nil => rfl
  | cons op rest ih =>
    rw [runOps, ih, applyOp_transactions]
    simp
    ring

/-- There are as many return values as calls. -/
theorem runReturns_length (account : Account) (ops : List Op) :
    (runReturns account ops).length = ops.length := by
  induction ops generalizing account with
  | nil => rfl
  | cons op rest ih => rw [runReturns]; simp [ih]

/-! ### The balance chain through the transaction history -/

/-- The balance recorded by the last transaction of the list, or `prev` when
the list is empty. -/
def lastBal (prev : Money) : List Transaction → Money
  | [] => prev
  | t :: rest => lastBal t.balance rest

/-- Each transaction's recorded balance extends its predecessor's recorded
balance (starting from `prev`) by its own income minus its own expense. -/
def chainedFrom (prev : Money) : List Transaction → Prop
  | [] => True
  | t :: rest => t.balance = prev + t.income - t.expense ∧ chainedFrom t.balance rest

theorem lastBal_append_single (prev : Money) (ts : List Transaction)
    (t : Transaction) : lastBal prev (ts ++ [t]) = t.balance := by
  induction ts generalizing prev with
  | nil => rfl
  | cons u rest ih => simpa [lastBal] using ih u.balance

theorem chainedFrom_append_single (prev : Money) (ts : List Transaction)
    (t : Transaction) :
    chainedFrom prev (ts ++ [t]) ↔
      chainedFrom prev ts ∧ t.balance = lastBal prev ts + t.income - t.expense := by
  induction ts generalizing prev with
  | nil => simp [chainedFrom, lastBal]
  | cons u rest ih => simp [chainedFrom, lastBal, ih u.balance, and_assoc]

/-- The account invariant: the balance field is the last recorded balance and
the history is chained from the startBalance field. -/
def GoodAccount (account : Account) : Prop :=
  account.balance = lastBal account.startBalance account.transactions ∧
  chainedFrom account.startBalance account.transactions

theorem goodAccount_create (startBalance : ℚ) :
    GoodAccount (createAccount startBalance) :=
  ⟨rfl, trivial⟩

theorem goodAccount_applyOp (account : Account) (op : Op)
    (h : GoodAccount account) : GoodAccount (applyOp account op).1 := by
  obtain ⟨hbal, hchain⟩ := h
  constructor
  · rw [applyOp_balance, applyOp_startBalance, applyOp_transactions,
      lastBal_append_single]
  · rw [applyOp_startBalance, applyOp_transactions]
    rw [chainedFrom_append_single]
    exact ⟨hchain, by rw [← hbal]⟩

theorem goodAccount_runOps (account : Account) (ops : List Op)
    (h : GoodAccount account) : GoodAccount (runOps account ops) := by
  induction ops generalizing account with
  | nil => exact h
  | cons op rest ih => exact ih _ (goodAccount_applyOp account op h)

/-- Pointwise reading of `chainedFrom`: entry i extends entry i-1 (or `prev`
for the first entry). -/
theorem chainedFrom_get (prev : Money) (ts : List Transaction)
    (h : chainedFrom prev ts) (i : Nat) (hi : i < ts.length) :
    (ts.get ⟨i, hi⟩).balance =
      (if i = 0 then prev else (ts.get ⟨i - 1, by omega⟩).balance)
        + (ts.get ⟨i, hi⟩).income - (ts.get ⟨i, hi⟩).expense := by
  induction ts generalizing prev i with
  | nil => exact absurd hi (by simp)
  | cons t rest ih =>
    cases i with
    | zero => simpa using h.1
    | succ j =>
      have hj : j < rest.length := by simpa using hi
      have hrec := ih t.balance h.2 j hj
      cases j with
      | zero => simpa using hrec
      | succ k => simpa using hrec

/-- The i-th return value is the balance after running the first i+1 calls. -/
theorem runReturns_get (account : Account) (ops : List Op) (i : Nat)
    (hi : i < ops.length) :
    (runReturns account ops).get
        ⟨i, by rw [runReturns_length]; exact hi⟩ =
      (runOps account (ops.take (i + 1))).balance := by
  induction ops generalizing account i with
  | nil => exact absurd hi (by simp)
  | cons op rest ih =>
    cases i with
    | zero =>
      simp [runReturns, runOps, applyOp_ret]
    | succ j =>
      have hj : j < rest.length := by simpa using hi
      simpa [runReturns, runOps] using ih (applyOp account op).1 j hj

/-! ### Persistence: JSON serialization (`encoding/json`)

`json.Marshal` on `Account` emits an object with keys `balance`,
`startBalance`, `transactions` (the struct tags), nested transaction objects
with keys `timestamp`, `income`, `expense`, `balance`, and int64 values as
exact decimal numbers.  `json.Unmarshal` decodes field by field into the
existing value: a missing key or a JSON `null` on a numeric field keeps the
prior value, a JSON `null` on the slice field sets the slice to nil, a
wrongly-typed value leaves the field and flags an error while decoding
continues best-effort (Go's `UnmarshalTypeError` behaviour), and a JSON array
replaces the slice with freshly decoded elements (each decoded from the zero
`Transaction`).  On bytes that are not syntactically valid JSON, `Unmarshal`
reports the error without writing to the target at all. -/

/-- JSON values; numbers are integers, which is exact for the int64 fields
this schema stores. -/
inductive Json where
  | null
  | bool (b : Bool)
  | num (n : Int)
  | str (s : String)
  | arr (elems : List Json)
  | obj (fields : List (String × Json))

/-- Last occurrence of a key wins, as in Go's JSON object decoding where each
occurrence overwrites the field.  (This schema's encoder never emits duplicate
keys, and the struct tags match keys exactly, so case folding is immaterial.) -/
def lastLookup (fields : List (String × Json)) (key : String) : Option Json :=
  match fields with
  | [] => none
  | (k, v) :: rest =>
    match lastLookup rest key with
    | some r => some r
    | none => if k = key then some v else none

/-- Decode one int64-valued field into its prior value: missing or `null`
keeps the prior value, a number overwrites it, anything else keeps the prior
value and flags a type error.  The Bool is `true` when no error occurred. -/
def decodeIntField (prior : Int) : Option Json → Int × Bool
  | none => (prior, true)
  | some .null => (prior, true)
  | some (.num n) => (n, true)
  | some _ => (prior, false)

/-- The zero value of `Transaction`, the decode target for fresh slice
elements. -/
def zeroTransaction : Transaction :=
  { timestamp := 0, income := 0, expense := 0, balance := 0 }

/-- Decode a JSON value into an existing `Transaction`, best-effort. -/
def unmarshalTransactionInto (prior : Transaction) : Json → Transaction × Bool
  | .null => (prior, true)
  | .obj fields =>
    let rt := decodeIntField prior.timestamp (lastLookup fields "timestamp")
    let ri := decodeIntField prior.income (lastLookup fields "income")
    let re := decodeIntField prior.expense (lastLookup fields "expense")
    let rb := decodeIntField prior.balance (lastLookup fields "balance")
    ({ timestamp := rt.1, income := ri.1, expense := re.1, balance := rb.1 },
     rt.2 && ri.2 && re.2 && rb.2)
  | _ => (prior, false)

/-- Decode a JSON array into a fresh transaction list, best-effort. -/
def unmarshalTransactionList : List Json → List Transaction × Bool
  | [] => ([], true)
  | j :: rest =>
    let r := unmarshalTransactionInto zeroTransaction j
    let rs := unmarshalTransactionList rest
    (r.1 :: rs.1, r.2 && rs.2)

/-- Decode the `transactions` field into the prior slice, best-effort. -/
def decodeTransactionsField (prior : List Transaction) :
    Option Json → List Transaction × Bool
  | none => (prior, true)
  | some .null => ([], true)
  | some (.arr elems) => unmarshalTransactionList elems
  | some _ => (prior, false)

/-- Decode a JSON value into an existing `Account`, best-effort, following
Go's `json.Unmarshal` into a pre-existing struct. -/
def unmarshalAccountInto (prior : Account) : Json → Account × Bool
  | .null => (prior, true)
  | .obj fields =>
    let rb := decodeIntField prior.balance (lastLookup fields "balance")
    let rs := decodeIntField prior.startBalance (lastLookup fields "startBalance")
    let rt := decodeTransactionsField prior.transactions
      (lastLookup fields "transactions")
    ({ balance := rb.1, startBalance := rs.1, transactions := rt.1 },
     rb.2 && rs.2 && rt.2)
  | _ => (prior, false)

/-- The JSON value `json.Marshal` produces for a `Transaction`. -/
def marshalTransaction (t : Transaction) : Json :=
  .obj [("timestamp", .num t.timestamp), ("income", .num t.income),
        ("expense", .num t.expense), ("balance", .num t.balance)]

/-- The JSON value `json.Marshal` produces for an `Account`. -/
def marshalAccount (account : Account) : Json :=
  .obj [("balance", .num account.balance),
        ("startBalance", .num account.startBalance),
        ("transactions", .arr (account.transactions.map marshalTransaction))]

/-- Go: `(account *Account) saveToFile(name string) error` — marshals the
account and writes the bytes.  Marshalling this struct cannot fail, so the
model is the JSON value that gets written. -/
def Account.saveToFile (account : Account) : Json :=
  marshalAccount account

/-- What `ioutil.ReadFile` plus JSON syntax checking can produce: a read
error, bytes that are not valid JSON, or a parsed JSON value. -/
inductive ReadResult where
  | ioError
  | content (parsed : Option Json)

/-- The error classes of the load path: the `ioutil.ReadFile` error and the
`json.Unmarshal` error. -/
inductive LoadError where
  | ioError
  | parseError
deriving DecidableEq

/-- Go: `(account *Account) readFromFile(name string) error`.  On a read
error it returns at once, before any unmarshalling, leaving the receiver
untouched.  On syntactically invalid JSON, `json.Unmarshal` reports an error
without writing to the receiver.  Otherwise the JSON value is decoded into
the receiver, and any type mismatch surfaces as an unmarshal error. -/
def Account.readFromFile (account : Account) (file : ReadResult) :
    Account × Option LoadError :=
  match file with
  | .ioError => (account, some .ioError)
  | .content none => (account, some .parseError)
  | .content (some j) =>
    let r := unmarshalAccountInto account j
    (r.1, if r.2 then none else some .parseError)

/-! ### Round-trip lemmas for the JSON layer -/

theorem unmarshal_marshal_transaction (t : Transaction) :
    unmarshalTransactionInto zeroTransaction (marshalTransaction t) =
      (t, true) := by
  cases t
  rfl

theorem unmarshal_marshal_transactionList (ts : List Transaction) :
    unmarshalTransactionList (ts.map marshalTransaction) = (ts, true) := by
  induction ts with
  | nil => rfl
  | cons t rest ih =>
    simp [unmarshalTransactionList, unmarshal_marshal_transaction, ih]

theorem unmarshal_marshal_account (prior account : Account) :
    unmarshalAccountInto prior (marshalAccount account) = (account, true) := by
  cases account
  simp [marshalAccount, unmarshalAccountInto, lastLookup, decodeIntField,
    decodeTransactionsField, unmarshal_marshal_transactionList]

/-! ## The claims -/

/-- C1: for every sequence of deposit/withdraw calls with non-negative
amounts on an account created with a given start balance, after each call the
balance field equals startBalance plus the sum of all incomes so far minus
the sum of all expenses so far, and that value is also the call's return
value. -/
theorem balance_equals_start_plus_net (startBalance : ℚ) (ops : List Op)
    (i : Nat) (_hnn : ∀ op ∈ ops, 0 ≤ op.amount) (hi : i < ops.length) :
    (runOps (createAccount startBalance) (ops.take (i + 1))).balance =
        (createAccount startBalance).startBalance +
          sumIncomes (ops.take (i + 1)) - sumExpenses (ops.take (i + 1)) ∧
    (runReturns (createAccount startBalance) ops).get
        ⟨i, by rw [runReturns_length]; exact hi⟩ =
      (runOps (createAccount startBalance) (ops.take (i + 1))).balance := by
  refine ⟨?_, runReturns_get _ ops i hi⟩
  rw [runOps_balance]
  rfl

/-- C1 witness: two non-negative calls from a zero start balance. -/
theorem balance_equals_start_plus_net_witness :
    (∀ op ∈ [Op.deposit 7 5, Op.withdraw 9 2], 0 ≤ op.amount) ∧
    1 < [Op.deposit 7 5, Op.withdraw 9 2].length ∧
    ((runOps (createAccount 0) ([Op.deposit 7 5, Op.withdraw 9 2].take 2)).balance =
        (createAccount 0).startBalance +
          sumIncomes ([Op.deposit 7 5, Op.withdraw 9 2].take 2) -
          sumExpenses ([Op.deposit 7 5, Op.withdraw 9 2].take 2) ∧
      (runReturns (createAccount 0) [Op.deposit 7 5, Op.withdraw 9 2]).get
          ⟨1, by rw [runReturns_length]; decide⟩ =
        (runOps (createAccount 0) ([Op.deposit 7 5, Op.withdraw 9 2].take 2)).balance) :=
  ⟨by decide, by decide,
    balance_equals_start_plus_net 0 [Op.deposit 7 5, Op.withdraw 9 2] 1
      (by decide) (by decide)⟩

/-- C2: for every account reachable from createAccount by deposit/withdraw
calls and every index into its history, the i-th recorded balance equals the
(i-1)-th recorded balance (startBalance for the first entry) plus the i-th
income minus the i-th expense. -/
theorem history_balance_chain (startBalance : ℚ) (ops : List Op) (i : Nat)
    (hi : i < (runOps (createAccount startBalance) ops).transactions.length) :
    ((runOps (createAccount startBalance) ops).transactions.get ⟨i, hi⟩).balance =
      (if i = 0 then (runOps (createAccount startBalance) ops).startBalance
        else ((runOps (createAccount startBalance) ops).transactions.get
          ⟨i - 1, by omega⟩).balance)
      + ((runOps (createAccount startBalance) ops).transactions.get ⟨i, hi⟩).income
      - ((runOps (createAccount startBalance) ops).transactions.get ⟨i, hi⟩).expense := by
  have h := goodAccount_runOps _ ops (goodAccount_create startBalance)
  exact chainedFrom_get _ _ h.2 i hi

/-- C2 witness: the first transaction of a one-deposit run. -/
theorem history_balance_chain_witness :
    0 < (runOps (createAccount 0) [Op.deposit 7 5]).transactions.length ∧
    ((runOps (createAccount 0) [Op.deposit 7 5]).transactions.get
        ⟨0, by decide⟩).balance =
      (if 0 = 0 then (runOps (createAccount 0) [Op.deposit 7 5]).startBalance
        else ((runOps (createAccount 0) [Op.deposit 7 5]).transactions.get
          ⟨0 - 1, by decide⟩).balance)
      + ((runOps (createAccount 0) [Op.deposit 7 5]).transactions.get
          ⟨0, by decide⟩).income
      - ((runOps (createAccount 0) [Op.deposit 7 5]).transactions.get
          ⟨0, by decide⟩).expense :=
  ⟨by decide, history_balance_chain 0 [Op.deposit 7 5] 0 (by decide)⟩

/-- C3 counterexample: deposit(-5) and withdraw(-5) do not fail and do not
leave the account alone: starting from a zero account, each changes the
balance field and appends a transaction (there is no InvalidAmount error in
the code at all). -/
theorem negative_amount_changes_state :
    ((createAccount 0).deposit 0 (-5)).1.balance ≠ (createAccount 0).balance ∧
    ((createAccount 0).deposit 0 (-5)).1.transactions ≠
      (createAccount 0).transactions ∧
    ((createAccount 0).withdraw 0 (-5)).1.balance ≠ (createAccount 0).balance ∧
    ((createAccount 0).withdraw 0 (-5)).1.transactions ≠
      (createAccount 0).transactions := by
  rw [createAccount_zero]
  decide

/-- C3 (amended): deposit and withdraw perform no amount validation: for a
negative amount they succeed with no error, deposit sets the balance to
balance + amount and withdraw to balance - amount, and each appends exactly
one transaction recording the negative income resp. expense. -/
theorem negative_amount_not_rejected (account : Account) (now : Int)
    (amount : Money) (_h : amount < 0) :
    (account.deposit now amount).1.balance = account.balance + amount ∧
    (account.deposit now amount).1.transactions =
      account.transactions ++
        [{ timestamp := now, income := amount, expense := 0,
           balance := account.balance + amount }] ∧
    (account.withdraw now amount).1.balance = account.balance - amount ∧
    (account.withdraw now amount).1.transactions =
      account.transactions ++
        [{ timestamp := now, income := 0, expense := amount,
           balance := account.balance - amount }] := by
  refine ⟨?_, ?_, ?_, ?_⟩ <;>
    simp [Account.deposit, Account.withdraw, Account.makeTransaction] <;>
    ring

/-- C3 witness: a negative deposit/withdraw on a concrete account. -/
theorem negative_amount_not_rejected_witness :
    ((-5 : Money) < 0) ∧
    ((Account.mk 3 3 []).deposit 0 (-5)).1.balance = (3 : Money) + (-5) :=
  ⟨by decide, (negative_amount_not_rejected ⟨3, 3, []⟩ 0 (-5) (by decide)).1⟩

/-- C4: saving an account and loading the saved content reconstructs an
account structurally equal to the original — balance, startBalance, and the
full transaction history with timestamps — whatever the receiver held
before, and with no error. -/
theorem save_load_roundtrip (account prior : Account) :
    prior.readFromFile (.content (some account.saveToFile)) = (account, none) := by
  simp [Account.readFromFile, Account.saveToFile, unmarshal_marshal_account]

/-- C5: readFromFile fails with the IO error when the read fails, with the
parse error when the bytes are not valid JSON or the JSON does not decode,
and a readable file either loads with no error or fails hard with the parse
error — never a quiet partial success. -/
theorem load_error_classification (account : Account) (j : Json) :
    account.readFromFile .ioError = (account, some .ioError) ∧
    account.readFromFile (.content none) = (account, some .parseError) ∧
    ((unmarshalAccountInto account j).2 = false →
      account.readFromFile (.content (some j)) =
        ((unmarshalAccountInto account j).1, some .parseError)) ∧
    ((account.readFromFile (.content (some j))).2 = none ∨
      (account.readFromFile (.content (some j))).2 = some .parseError) := by
  refine ⟨rfl, rfl, ?_, ?_⟩
  · intro h
    simp [Account.readFromFile, h]
  · by_cases h : (unmarshalAccountInto account j).2 <;>
      simp [Account.readFromFile, h]

/-- C5 witness: decoding a JSON string where the account object should be
fails, and readFromFile surfaces it as the parse error. -/
theorem load_error_classification_witness :
    (unmarshalAccountInto ⟨0, 0, []⟩ (Json.str "oops")).2 = false ∧
    Account.readFromFile ⟨0, 0, []⟩ (.content (some (Json.str "oops"))) =
      ((unmarshalAccountInto ⟨0, 0, []⟩ (Json.str "oops")).1, some .parseError) :=
  ⟨by decide,
    (load_error_classification ⟨0, 0, []⟩ (Json.str "oops")).2.2.1 (by decide)⟩

/-- C6: withdraw succeeds even when the amount exceeds the current balance:
there is no insufficient-funds check, the transaction is performed, and the
resulting balance is negative. -/
theorem withdraw_overdraft (account : Account) (now : Int) (amount : Money)
    (_hnn : 0 ≤ amount) (hover : account.balance < amount) :
    (account.withdraw now amount).1.balance = account.balance - amount ∧
    (account.withdraw now amount).1.balance < 0 ∧
    (account.withdraw now amount).1.transactions.length =
      account.transactions.length + 1 := by
  refine ⟨?_, ?_, ?_⟩
  · simp [Account.withdraw, Account.makeTransaction]
  · have : account.balance - amount < 0 := sub_neg.mpr hover
    simpa [Account.withdraw, Account.makeTransaction] using this
  · simp [Account.withdraw, Account.makeTransaction]

/-- C6 witness: withdrawing 5 from a zero balance. -/
theorem withdraw_overdraft_witness :
    ((0 : Money) ≤ 5) ∧ ((Account.mk 0 0 []).balance < 5) ∧
    ((Account.mk 0 0 []).withdraw 0 5).1.balance = (0 : Money) - 5 ∧
    ((Account.mk 0 0 []).withdraw 0 5).1.balance < 0 ∧
    ((Account.mk 0 0 []).withdraw 0 5).1.transactions.length =
      (Account.mk 0 0 []).transactions.length + 1 :=
  ⟨by decide, by decide, withdraw_overdraft ⟨0, 0, []⟩ 0 5 (by decide) (by decide)⟩

/-- C7: every deposit/withdraw call leaves the startBalance field unchanged
and appends exactly one transaction after the unmodified existing ones, so a
run from creation has exactly one history entry per call. -/
theorem frame_and_history_length (account : Account) (op : Op)
    (startBalance : ℚ) (ops : List Op) :
    (applyOp account op).1.startBalance = account.startBalance ∧
    (∃ t, (applyOp account op).1.transactions = account.transactions ++ [t]) ∧
    (runOps (createAccount startBalance) ops).transactions.length = ops.length := by
  refine ⟨applyOp_startBalance account op, ⟨_, applyOp_transactions account op⟩, ?_⟩
  rw [runOps_transactions_length]
  simp [createAccount]

/-- C8 counterexample: on the decimal input 11/16 — a dyadic rational, so
both it and its product with 100 are exactly representable in binary floating
point and the Go float computation is exact at this input — the code yields
68 cents while rounding to nearest would yield 69: the conversion truncates
and loses the fractional cent. -/
theorem fToMoney_truncates_not_rounds :
    fToMoney (11 / 16) = 68 ∧ round ((11 / 16 : ℚ) * 100) = 69 := by
  constructor
  · exact fToMoney_eval _ _ (by norm_num) (by norm_num) (by norm_num)
  · rw [round_eq]
    exact Int.floor_eq_iff.mpr ⟨by norm_num, by norm_num⟩

/-- C8 (amended): the conversion from a decimal amount to Money truncates
toward zero rather than rounding to nearest: on a non-negative input it is
the floor of 100 times the input, so it can fall short of the exact cent
value by up to one cent. -/
theorem fToMoney_floor (f : ℚ) (h : 0 ≤ f) :
    fToMoney f = ⌊f * 100⌋ ∧
    (fToMoney f : ℚ) ≤ f * 100 ∧ f * 100 - 1 < (fToMoney f : ℚ) := by
  have hq : (0 : ℚ) ≤ f * 100 := by positivity
  rw [fToMoney, ratTruncTowardZero, if_pos hq]
  exact ⟨rfl, Int.floor_le _, Int.sub_one_lt_floor _⟩

/-- C8 witness: the amended statement at the input 11/16. -/
theorem fToMoney_floor_witness :
    ((0 : ℚ) ≤ 11 / 16) ∧
    (fToMoney (11 / 16) = ⌊(11 / 16 : ℚ) * 100⌋ ∧
      (fToMoney (11 / 16) : ℚ) ≤ (11 / 16 : ℚ) * 100 ∧
      (11 / 16 : ℚ) * 100 - 1 < (fToMoney (11 / 16) : ℚ)) :=
  ⟨by norm_num, fToMoney_floor (11 / 16) (by norm_num)⟩

/-- C9: deposit and withdraw are unconditional for amounts of either sign:
deposit adds the amount to the balance, withdraw subtracts it, each appends
one transaction, and in particular a negative withdrawal increases the
balance while a negative deposit decreases it. -/
theorem deposit_withdraw_unconditional (account : Account) (now : Int)
    (amount : Money) :
    (account.deposit now amount).1.balance = account.balance + amount ∧
    (account.withdraw now amount).1.balance = account.balance - amount ∧
    (account.deposit now amount).1.transactions.length =
      account.transactions.length + 1 ∧
    (account.withdraw now amount).1.transactions.length =
      account.transactions.length + 1 ∧
    (amount < 0 →
      account.balance < (account.withdraw now amount).1.balance ∧
      (account.deposit now amount).1.balance < account.balance) := by
  refine ⟨?_, ?_, ?_, ?_, ?_⟩
  · simp [Account.deposit, Account.makeTransaction]
    ring
  · simp [Account.withdraw, Account.makeTransaction]
  · simp [Account.deposit, Account.makeTransaction]
  · simp [Account.withdraw, Account.makeTransaction]
  · intro hneg
    constructor
    · simp [Account.withdraw, Account.makeTransaction]
      linarith
    · simp [Account.deposit, Account.makeTransaction]
      linarith

/-- C9 witness: a negative amount on a concrete account. -/
theorem deposit_withdraw_unconditional_witness :
    ((-5 : Money) < 0) ∧
    ((Account.mk 2 2 []).balance < ((Account.mk 2 2 []).withdraw 0 (-5)).1.balance ∧
      ((Account.mk 2 2 []).deposit 0 (-5)).1.balance < (Account.mk 2 2 []).balance) :=
  ⟨by decide,
    (deposit_withdraw_unconditional ⟨2, 2, []⟩ 0 (-5)).2.2.2.2 (by decide)⟩

/-- C10: when the read itself fails, readFromFile returns the IO error
before any deserialization has run, and the account it leaves behind is
exactly the one passed in. -/
theorem read_failure_atomic (account : Account) :
    account.readFromFile .ioError = (account, some .ioError) :=
  rfl

end MyLittleLedger
